import Mathlib

/-!
# Verification of the FileConverter pipeline

Shallow embedding of the FileConverter repository (a Streamlit file
conversion app) and proofs about its claims.  Filenames and text are
modelled as `List Char`, byte streams as `List Nat` (each entry < 256),
decoded text as `List Nat` of Unicode code points.  External libraries
(PIL, pydub, PyPDF2, python-docx, reportlab, ffmpeg) are modelled as
explicit environment parameters; everything implemented in the
repository itself is translated directly from the source.
-/

namespace FileConverter

/-! ## Character and path helpers (Python `str.lower`, `pathlib.Path`)

`lowerChar` models Python `str.lower` on the ASCII range (the format
tables compared against are all ASCII). -/

def lowerChar (c : Char) : Char :=
  if 65 ≤ c.toNat ∧ c.toNat ≤ 90 then Char.ofNat (c.toNat + 32) else c

/-- Index of the last `'.'` in a list of characters (Python `str.rfind('.')`),
`none` when absent. -/
def rfindDot : List Char → Option Nat
  | [] => none
  | c :: rest =>
    match rfindDot rest with
    | some i => some (i + 1)
    | none => if c = '.' then some 0 else none

/-- `pathlib.PurePosixPath(s).name`: the final path component.  pathlib
drops empty components (from repeated or trailing slashes) and `'.'`
components while parsing. -/
def pathName (s : List Char) : List Char :=
  ((s.splitOn '/').filter (fun comp => comp ≠ [] ∧ comp ≠ ['.'])).getLastD []

/-- `pathlib.PurePath.suffix` on a path name: `name[i:]` where `i` is the
index of the last dot, provided `0 < i < len(name) - 1`; else empty. -/
def pathSuffix (n : List Char) : List Char :=
  match rfindDot n with
  | some i => if 0 < i ∧ i < n.length - 1 then n.drop i else []
  | none => []

/-- `pathlib.PurePath.stem`: the name with its suffix removed. -/
def pathStem (s : List Char) : List Char :=
  let n := pathName s
  n.take (n.length - (pathSuffix n).length)

/-- `Path(filename).suffix.lower()[1:]` as used throughout the source. -/
def pyExt (filename : List Char) : List Char :=
  ((pathSuffix (pathName filename)).map lowerChar).drop 1

/-! ## utils/file_utils.py : get_file_type -/

def document_formats : List (List Char) :=
  ["pdf".toList, "doc".toList, "docx".toList, "txt".toList, "rtf".toList, "odt".toList]

def image_formats : List (List Char) :=
  ["jpg".toList, "jpeg".toList, "png".toList, "gif".toList, "webp".toList,
   "bmp".toList, "tiff".toList, "svg".toList]

def audio_formats : List (List Char) :=
  ["mp3".toList, "wav".toList, "m4a".toList, "ogg".toList, "flac".toList,
   "aac".toList, "wma".toList]

def video_formats : List (List Char) :=
  ["mp4".toList, "avi".toList, "mov".toList, "mkv".toList, "webm".toList,
   "flv".toList, "wmv".toList, "3gp".toList]

/-- `get_file_type` from `utils/file_utils.py`. -/
def get_file_type (filename : List Char) : String :=
  let ext := pyExt filename
  if ext ∈ document_formats then "document"
  else if ext ∈ image_formats then "image"
  else if ext ∈ audio_formats then "audio"
  else if ext ∈ video_formats then "video"
  else "unknown"

/-- The classifier as claim C5 words it: extension = substring after the
last `'.'` of the filename, lower-cased; missing dot means no extension.
Stated from the spec sentence only, for comparison with `get_file_type`. -/
def get_file_type_claimRule (filename : List Char) : String :=
  let ext :=
    match rfindDot filename with
    | some i => (filename.drop (i + 1)).map lowerChar
    | none => []
  if ext ∈ document_formats then "document"
  else if ext ∈ image_formats then "image"
  else if ext ∈ audio_formats then "audio"
  else if ext ∈ video_formats then "video"
  else "unknown"

/-! ## utils/validation.py : validate_file_size -/

/-- The `size_limits` dict from `validate_file_size`. -/
def size_limits (t : String) : Option Nat :=
  if t = "document" then some (100 * 1024 * 1024)
  else if t = "image" then some (100 * 1024 * 1024)
  else if t = "audio" then some (100 * 1024 * 1024)
  else if t = "video" then some (50 * 1024 * 1024)
  else none

/-- `validate_file_size` from `utils/validation.py` (numeric formatting of
the message is abstracted; only its presence matters to the claims). -/
def validate_file_size (file_size_bytes : Nat) (file_type : String) : Bool × String :=
  let limit := (size_limits file_type).getD (100 * 1024 * 1024)
  if file_size_bytes > limit then
    (false, "File size exceeds limit for " ++ file_type ++ " files")
  else
    (true, "File size is valid")

/-! ## utils/file_utils.py : clean_filename -/

def invalid_chars : List Char := ['<', '>', ':', '"', '/', '\\', '|', '?', '*']

/-- Python `str.replace(char, '_')` for a single character. -/
def replaceChar (c : Char) (l : List Char) : List Char :=
  l.map (fun x => if x = c then '_' else x)

/-- The loop `for char in invalid_chars: clean_name = clean_name.replace(char, '_')`. -/
def replaceInvalid (l : List Char) : List Char :=
  invalid_chars.foldl (fun acc c => replaceChar c acc) l

/-- Python `'__' in s`. -/
def hasDD : List Char → Bool
  | [] => false
  | [_] => false
  | c1 :: c2 :: r => if c1 = '_' ∧ c2 = '_' then true else hasDD (c2 :: r)

/-- Python `s.replace('__', '_')`: replaces leftmost non-overlapping
occurrences of `"__"` by `"_"`, scanning left to right. -/
def repDD : List Char → List Char
  | [] => []
  | [c] => [c]
  | c1 :: c2 :: r => if c1 = '_' ∧ c2 = '_' then '_' :: repDD r else c1 :: repDD (c2 :: r)

theorem repDD_length_le (l : List Char) : (repDD l).length ≤ l.length := by
  induction l using repDD.induct with
  | case1 => simp [repDD]
  | case2 c => simp [repDD]
  | case3 c1 c2 r h ih => simp only [repDD, if_pos h, List.length_cons]; omega
  | case4 c1 c2 r h ih =>
    simp only [List.length_cons] at ih
    simp only [repDD, if_neg h, List.length_cons]
    omega

theorem repDD_length_lt (l : List Char) (h : hasDD l = true) :
    (repDD l).length < l.length := by
  induction l using repDD.induct with
  | case1 => simp [hasDD] at h
  | case2 c => simp [hasDD] at h
  | case3 c1 c2 r hu ih =>
    have := repDD_length_le r
    simp only [repDD, if_pos hu, List.length_cons]
    omega
  | case4 c1 c2 r hu ih =>
    have hr : hasDD (c2 :: r) = true := by
      simpa [hasDD, if_neg hu] using h
    have hlt := ih hr
    simp only [List.length_cons] at hlt
    simp only [repDD, if_neg hu, List.length_cons]
    omega

/-- The loop `while '__' in clean_name: clean_name = clean_name.replace('__', '_')`. -/
def collapseDD (l : List Char) : List Char :=
  if h : hasDD l = true then collapseDD (repDD l) else l
termination_by l.length
decreasing_by exact repDD_length_lt l h

/-- Python `s.strip('_ ')`: drop leading and trailing characters in `{'_', ' '}`. -/
def stripUS (l : List Char) : List Char :=
  ((l.dropWhile (fun c => c = '_' ∨ c = ' ')).reverse.dropWhile
      (fun c => c = '_' ∨ c = ' ')).reverse

/-- `clean_filename` from `utils/file_utils.py`. -/
def clean_filename (l : List Char) : List Char :=
  stripUS (collapseDD (replaceInvalid l))

/-! ## Python text-mode file reading: UTF-8 decoding with `errors='ignore'`
plus universal-newline translation (`open(path, 'r', encoding='utf-8',
errors='ignore')` in `DocumentConverter._convert_from_txt`).

`decodeOne b0 r` decodes one UTF-8 sequence starting with byte `b0`
followed by the bytes `r`, returning the code point and how many bytes of
`r` it consumed, or `none` for an ill-formed sequence (overlong forms,
surrogates and values above U+10FFFF are rejected, as CPython does). -/

/-- Code point of a three-byte sequence. -/
def cp3 (b0 b1 b2 : Nat) : Nat :=
  (b0 - 0xE0) * 0x1000 + (b1 - 0x80) * 0x40 + (b2 - 0x80)

/-- Code point of a four-byte sequence. -/
def cp4 (b0 b1 b2 b3 : Nat) : Nat :=
  (b0 - 0xF0) * 0x40000 + (b1 - 0x80) * 0x1000 + (b2 - 0x80) * 0x40 + (b3 - 0x80)

def decodeOne (b0 : Nat) (r : List Nat) : Option (Nat × Nat) :=
  if b0 < 0x80 then some (b0, 0)
  else if 0xC2 ≤ b0 ∧ b0 ≤ 0xDF ∧ 1 ≤ r.length ∧
      0x80 ≤ r.getD 0 0 ∧ r.getD 0 0 ≤ 0xBF then
    some ((b0 - 0xC0) * 0x40 + (r.getD 0 0 - 0x80), 1)
  else if b0 = 0xE0 ∧ 2 ≤ r.length ∧ 0xA0 ≤ r.getD 0 0 ∧ r.getD 0 0 ≤ 0xBF ∧
      0x80 ≤ r.getD 1 0 ∧ r.getD 1 0 ≤ 0xBF then
    some (cp3 b0 (r.getD 0 0) (r.getD 1 0), 2)
  else if b0 = 0xED ∧ 2 ≤ r.length ∧ 0x80 ≤ r.getD 0 0 ∧ r.getD 0 0 ≤ 0x9F ∧
      0x80 ≤ r.getD 1 0 ∧ r.getD 1 0 ≤ 0xBF then
    some (cp3 b0 (r.getD 0 0) (r.getD 1 0), 2)
  else if 0xE1 ≤ b0 ∧ b0 ≤ 0xEF ∧ b0 ≠ 0xED ∧ 2 ≤ r.length ∧
      0x80 ≤ r.getD 0 0 ∧ r.getD 0 0 ≤ 0xBF ∧
      0x80 ≤ r.getD 1 0 ∧ r.getD 1 0 ≤ 0xBF then
    some (cp3 b0 (r.getD 0 0) (r.getD 1 0), 2)
  else if b0 = 0xF0 ∧ 3 ≤ r.length ∧ 0x90 ≤ r.getD 0 0 ∧ r.getD 0 0 ≤ 0xBF ∧
      0x80 ≤ r.getD 1 0 ∧ r.getD 1 0 ≤ 0xBF ∧
      0x80 ≤ r.getD 2 0 ∧ r.getD 2 0 ≤ 0xBF then
    some (cp4 b0 (r.getD 0 0) (r.getD 1 0) (r.getD 2 0), 3)
  else if 0xF1 ≤ b0 ∧ b0 ≤ 0xF3 ∧ 3 ≤ r.length ∧
      0x80 ≤ r.getD 0 0 ∧ r.getD 0 0 ≤ 0xBF ∧
      0x80 ≤ r.getD 1 0 ∧ r.getD 1 0 ≤ 0xBF ∧
      0x80 ≤ r.getD 2 0 ∧ r.getD 2 0 ≤ 0xBF then
    some (cp4 b0 (r.getD 0 0) (r.getD 1 0) (r.getD 2 0), 3)
  else if b0 = 0xF4 ∧ 3 ≤ r.length ∧ 0x80 ≤ r.getD 0 0 ∧ r.getD 0 0 ≤ 0x8F ∧
      0x80 ≤ r.getD 1 0 ∧ r.getD 1 0 ≤ 0xBF ∧
      0x80 ≤ r.getD 2 0 ∧ r.getD 2 0 ≤ 0xBF then
    some (cp4 b0 (r.getD 0 0) (r.getD 1 0) (r.getD 2 0), 3)
  else none

/-- UTF-8 decoding with ill-formed bytes dropped (Python `errors='ignore'`;
skipping one byte at a time on error yields the same output as CPython's
maximal-subpart skipping, since no dropped byte can begin a valid
sequence at a position CPython would not also restart from). -/
def utf8DecodeIgnore : List Nat → List Nat
  | [] => []
  | b0 :: r =>
    match decodeOne b0 r with
    | some (c, k) => c :: utf8DecodeIgnore (r.drop k)
    | none => utf8DecodeIgnore r
termination_by l => l.length
decreasing_by
  · simp only [List.length_cons, List.length_drop]; omega
  · simp only [List.length_cons]; omega

/-- UTF-8 encoding of one code point (`str.encode('utf-8')`). -/
def utf8EncodeChar (c : Nat) : List Nat :=
  if c < 0x80 then [c]
  else if c < 0x800 then [0xC0 + c / 0x40, 0x80 + c % 0x40]
  else if c < 0x10000 then
    [0xE0 + c / 0x1000, 0x80 + c / 0x40 % 0x40, 0x80 + c % 0x40]
  else
    [0xF0 + c / 0x40000, 0x80 + c / 0x1000 % 0x40, 0x80 + c / 0x40 % 0x40, 0x80 + c % 0x40]

def utf8Encode (cs : List Nat) : List Nat :=
  (cs.map utf8EncodeChar).flatten

/-- Universal-newline translation performed by Python text-mode reading:
`"\r\n"` and `"\r"` both become `"\n"`. -/
def univNewlines : List Nat → List Nat
  | [] => []
  | [c] => [if c = 13 then 10 else c]
  | c1 :: c2 :: r =>
    if c1 = 13 then
      if c2 = 10 then 10 :: univNewlines r else 10 :: univNewlines (c2 :: r)
    else c1 :: univNewlines (c2 :: r)

/-- The string produced by `f.read()` on a text-mode UTF-8 file opened with
`errors='ignore'`, as a list of code points. -/
def readTxt (bytes : List Nat) : List Nat :=
  univNewlines (utf8DecodeIgnore bytes)

/-- Well-formed UTF-8 byte strings (the sequences CPython's strict UTF-8
decoder accepts). -/
inductive ValidUtf8 : List Nat → Prop where
  | nil : ValidUtf8 []
  | one {b r} : b < 0x80 → ValidUtf8 r → ValidUtf8 (b :: r)
  | two {b0 b1 r} : 0xC2 ≤ b0 → b0 ≤ 0xDF → 0x80 ≤ b1 → b1 ≤ 0xBF →
      ValidUtf8 r → ValidUtf8 (b0 :: b1 :: r)
  | threeE0 {b1 b2 r} : 0xA0 ≤ b1 → b1 ≤ 0xBF → 0x80 ≤ b2 → b2 ≤ 0xBF →
      ValidUtf8 r → ValidUtf8 (0xE0 :: b1 :: b2 :: r)
  | threeED {b1 b2 r} : 0x80 ≤ b1 → b1 ≤ 0x9F → 0x80 ≤ b2 → b2 ≤ 0xBF →
      ValidUtf8 r → ValidUtf8 (0xED :: b1 :: b2 :: r)
  | threeMid {b0 b1 b2 r} : 0xE1 ≤ b0 → b0 ≤ 0xEF → b0 ≠ 0xED →
      0x80 ≤ b1 → b1 ≤ 0xBF → 0x80 ≤ b2 → b2 ≤ 0xBF →
      ValidUtf8 r → ValidUtf8 (b0 :: b1 :: b2 :: r)
  | fourF0 {b1 b2 b3 r} : 0x90 ≤ b1 → b1 ≤ 0xBF → 0x80 ≤ b2 → b2 ≤ 0xBF →
      0x80 ≤ b3 → b3 ≤ 0xBF → ValidUtf8 r → ValidUtf8 (0xF0 :: b1 :: b2 :: b3 :: r)
  | fourMid {b0 b1 b2 b3 r} : 0xF1 ≤ b0 → b0 ≤ 0xF3 →
      0x80 ≤ b1 → b1 ≤ 0xBF → 0x80 ≤ b2 → b2 ≤ 0xBF →
      0x80 ≤ b3 → b3 ≤ 0xBF → ValidUtf8 r → ValidUtf8 (b0 :: b1 :: b2 :: b3 :: r)
  | fourF4 {b1 b2 b3 r} : 0x80 ≤ b1 → b1 ≤ 0x8F → 0x80 ≤ b2 → b2 ≤ 0xBF →
      0x80 ≤ b3 → b3 ≤ 0xBF → ValidUtf8 r → ValidUtf8 (0xF4 :: b1 :: b2 :: b3 :: r)

/-! ## converters/document_converter.py

The reportlab / python-docx / PyPDF2 library calls are modelled as an
environment of opaque functions; everything the repository implements is
translated directly.  `convert` receives the extension of its input path
(the temporary file created by `app.convert_file`). -/

/-- One successful conversion result: `(data, output_filename, mime_type)`. -/
structure ConvResult where
  data : List Nat
  filename : List Char
  mime : String
deriving DecidableEq

/-- External document libraries: reportlab rendering (`_txt_to_pdf`'s
canvas output), python-docx rendering (`_txt_to_docx`'s buffer), and the
PyPDF2 / python-docx text extractors (with their internal
placeholder-on-failure policy). Inputs are code-point lists, outputs bytes. -/
structure DocEnv where
  txtToPdfBytes : List Nat → List Nat
  txtToDocxBytes : List Nat → List Nat
  extractPdfText : List Nat → List Nat
  extractDocxText : List Nat → List Nat

def docxMime : String :=
  "application/vnd.openxmlformats-officedocument.wordprocessingml.document"

/-- `DocumentConverter._get_output_filename`: note the format is NOT
lower-cased here, unlike the other three converters. -/
def doc_get_output_filename (original_filename output_format : List Char) : List Char :=
  pathStem original_filename ++ '.' :: output_format

/-- `DocumentConverter.convert` (with `_convert_from_txt`,
`_convert_from_pdf`, `_convert_from_docx` inlined in order). -/
def documentConvert (env : DocEnv) (input_ext : List Char) (input_bytes : List Nat)
    (output_format original_filename : List Char) : Except String ConvResult :=
  let output_filename := doc_get_output_filename original_filename output_format
  if input_ext = "txt".toList then
    let content := readTxt input_bytes
    if output_format = "txt".toList then
      .ok ⟨utf8Encode content, output_filename, "text/plain"⟩
    else if output_format = "pdf".toList then
      .ok ⟨env.txtToPdfBytes content, output_filename, "application/pdf"⟩
    else if output_format = "docx".toList then
      .ok ⟨env.txtToDocxBytes content, output_filename, docxMime⟩
    else .error "Unsupported output format"
  else if input_ext = "pdf".toList then
    if output_format = "pdf".toList then
      .ok ⟨input_bytes, output_filename, "application/pdf"⟩
    else
      let text_content := env.extractPdfText input_bytes
      if output_format = "txt".toList then
        .ok ⟨utf8Encode text_content, output_filename, "text/plain"⟩
      else if output_format = "docx".toList then
        .ok ⟨env.txtToDocxBytes text_content, output_filename, docxMime⟩
      else .error "Unsupported output format"
  else if input_ext = "doc".toList ∨ input_ext = "docx".toList then
    if output_format = "docx".toList then
      .ok ⟨input_bytes, output_filename, docxMime⟩
    else
      let text_content := env.extractDocxText input_bytes
      if output_format = "txt".toList then
        .ok ⟨utf8Encode text_content, output_filename, "text/plain"⟩
      else if output_format = "pdf".toList then
        .ok ⟨env.txtToPdfBytes text_content, output_filename, "application/pdf"⟩
      else .error "Unsupported output format"
  else .error "Unsupported input format"

/-! ## converters/image_converter.py

PIL decode/encode is external; the branch structure of `convert` is
translated.  `α` is the type of PIL image objects. -/

structure ImgEnv (α : Type) where
  openImage : Except String α
  toJpegBytes : α → List Nat
  toPngBytes : α → List Nat
  toGifBytes : α → List Nat
  toWebpBytes : α → List Nat
  toBmpBytes : α → List Nat

/-- `ImageConverter._get_output_filename` (lower-cases the format). -/
def image_get_output_filename (original_filename output_format : List Char) : List Char :=
  pathStem original_filename ++ '.' :: output_format.map lowerChar

/-- `ImageConverter.convert`. -/
def imageConvert {α : Type} (env : ImgEnv α) (output_format original_filename : List Char) :
    Except String ConvResult :=
  let output_filename := image_get_output_filename original_filename output_format
  match env.openImage with
  | .error e => .error ("Failed to convert image: " ++ e)
  | .ok img =>
    let f := output_format.map lowerChar
    if f = "jpg".toList ∨ f = "jpeg".toList then
      .ok ⟨env.toJpegBytes img, output_filename, "image/jpeg"⟩
    else if f = "png".toList then .ok ⟨env.toPngBytes img, output_filename, "image/png"⟩
    else if f = "gif".toList then .ok ⟨env.toGifBytes img, output_filename, "image/gif"⟩
    else if f = "webp".toList then .ok ⟨env.toWebpBytes img, output_filename, "image/webp"⟩
    else if f = "bmp".toList then .ok ⟨env.toBmpBytes img, output_filename, "image/bmp"⟩
    else .error "Failed to convert image: Unsupported output format"

/-! ## converters/audio_converter.py

pydub loaders and exporters are external.  The embedding instruments
`convert` with a trace of loader invocations (the list of `AudioSegment`
loading calls made, in order) and threads the set of existing temporary
files explicitly, so that the fallback-retry and cleanup behaviour are
stated exactly. -/

/-- The pydub loading entry points dispatched on the input extension in
`AudioConverter.convert`. -/
inductive Loader where
  | fromMp3 | fromWav | fromFileM4a | fromOgg | fromFileFlac | fromFileGeneric
deriving DecidableEq

/-- The extension dispatch at the top of `AudioConverter.convert`. -/
def loaderFor (input_ext : List Char) : Loader :=
  if input_ext = "mp3".toList then .fromMp3
  else if input_ext = "wav".toList then .fromWav
  else if input_ext = "m4a".toList then .fromFileM4a
  else if input_ext = "ogg".toList then .fromOgg
  else if input_ext = "flac".toList then .fromFileFlac
  else .fromFileGeneric

/-- The per-format export profiles of `_export_audio` (format string plus
fixed encoder settings passed to `audio.export`). -/
inductive ExportProfile where
  | mp3Bitrate192k | wavDefault | mp4CodecAac | oggDefault | flacDefault
deriving DecidableEq

/-- External pydub operations: loading returns an `AudioSegment` (type `α`)
or throws; exporting writes the target file and the converter then reads
its bytes back (modelled as the returned byte list), or throws. -/
structure AudioEnv (α : Type) where
  runLoader : Loader → Except String α
  runExport : α → ExportProfile → Except String (List Nat)

def audio_mime_types (fmt : List Char) : String :=
  if fmt = "mp3".toList then "audio/mpeg"
  else if fmt = "wav".toList then "audio/wav"
  else if fmt = "m4a".toList then "audio/mp4"
  else if fmt = "ogg".toList then "audio/ogg"
  else if fmt = "flac".toList then "audio/flac"
  else "audio/mpeg"

/-- `AudioConverter._get_output_filename` (lower-cases the format). -/
def audio_get_output_filename (original_filename output_format : List Char) : List Char :=
  pathStem original_filename ++ '.' :: output_format.map lowerChar

/-- The format dispatch inside `_export_audio` (each branch is one
`audio.export(...)` call with its fixed settings, followed by reading the
written file back; a format outside the table raises `ValueError`). -/
def audioExportDispatch {α : Type} (env : AudioEnv α) (audio : α)
    (output_format : List Char) : Except String (List Nat) :=
  if output_format = "mp3".toList then env.runExport audio .mp3Bitrate192k
  else if output_format = "wav".toList then env.runExport audio .wavDefault
  else if output_format = "m4a".toList then env.runExport audio .mp4CodecAac
  else if output_format = "ogg".toList then env.runExport audio .oggDefault
  else if output_format = "flac".toList then env.runExport audio .flacDefault
  else .error "Unsupported output format"

/-- `AudioConverter._export_audio`.  `tmp` is the fresh name produced by
`tempfile.NamedTemporaryFile`; `fs` is the list of temporary files
existing before the call; the second component is the list after the
call (the `finally` block unlinks `tmp` on every path). -/
def audioExport {α : Type} (env : AudioEnv α) (audio : α)
    (output_format output_filename : List Char) (tmp : List Char)
    (fs : List (List Char)) : Except String ConvResult × List (List Char) :=
  let fs1 := fs ++ [tmp]
  match audioExportDispatch env audio output_format with
  | .ok audio_data => (.ok ⟨audio_data, output_filename, audio_mime_types output_format⟩, fs1.erase tmp)
  | .error e => (.error e, fs1.erase tmp)

/-- `AudioConverter.convert`.  Returns the outcome, the trace of loader
invocations, and the final temporary-file list (`tmp1` / `tmp2` are the
fresh temp names used by the first / fallback `_export_audio` call). -/
def audioConvert {α : Type} (env : AudioEnv α) (input_ext output_format original_filename : List Char)
    (tmp1 tmp2 : List Char) (fs : List (List Char)) :
    Except String ConvResult × List Loader × List (List Char) :=
  let output_filename := audio_get_output_filename original_filename output_format
  match env.runLoader (loaderFor input_ext) with
  | .ok audio =>
    match audioExport env audio output_format output_filename tmp1 fs with
    | (.ok r, fs1) => (.ok r, [loaderFor input_ext], fs1)
    | (.error e, fs1) =>
      -- the except-block fallback: one generic `AudioSegment.from_file` attempt
      match env.runLoader .fromFileGeneric with
      | .ok audio2 =>
        match audioExport env audio2 output_format output_filename tmp2 fs1 with
        | (.ok r, fs2) => (.ok r, [loaderFor input_ext, .fromFileGeneric], fs2)
        | (.error e2, fs2) =>
          (.error ("Failed to convert audio: " ++ e ++ ". Fallback also failed: " ++ e2),
           [loaderFor input_ext, .fromFileGeneric], fs2)
      | .error e2 =>
        (.error ("Failed to convert audio: " ++ e ++ ". Fallback also failed: " ++ e2),
         [loaderFor input_ext, .fromFileGeneric], fs1)
  | .error e =>
    match env.runLoader .fromFileGeneric with
    | .ok audio2 =>
      match audioExport env audio2 output_format output_filename tmp2 fs with
      | (.ok r, fs2) => (.ok r, [loaderFor input_ext, .fromFileGeneric], fs2)
      | (.error e2, fs2) =>
        (.error ("Failed to convert audio: " ++ e ++ ". Fallback also failed: " ++ e2),
         [loaderFor input_ext, .fromFileGeneric], fs2)
    | .error e2 =>
      (.error ("Failed to convert audio: " ++ e ++ ". Fallback also failed: " ++ e2),
       [loaderFor input_ext, .fromFileGeneric], fs)

/-! ## converters/video_converter.py

The ffmpeg subprocess is external.  The embedding records each
`subprocess.run` invocation as `(command, timeout-seconds)` and threads
the temporary-file list. -/

/-- Outcome of `subprocess.run(cmd, capture_output=True, timeout=300)`:
completion with an exit code and captured stderr, or `TimeoutExpired`. -/
inductive RunOutcome where
  | completed (exitCode : Int) (stderr : String)
  | timedOut
deriving DecidableEq

structure VideoEnv where
  /-- result of `VideoConverter._check_ffmpeg` (the `ffmpeg -version` probe). -/
  ffmpegAvailable : Bool
  /-- subprocess execution: command and timeout in seconds. -/
  run : List (List Char) → Nat → RunOutcome
  /-- bytes of the temporary output file after a successful run. -/
  outputBytes : List Nat

def video_mime_types (fmt : List Char) : String :=
  if fmt = "mp4".toList then "video/mp4"
  else if fmt = "avi".toList then "video/x-msvideo"
  else if fmt = "mov".toList then "video/quicktime"
  else if fmt = "mkv".toList then "video/x-matroska"
  else if fmt = "webm".toList then "video/webm"
  else "video/mp4"

/-- `VideoConverter._get_output_filename` (lower-cases the format). -/
def video_get_output_filename (original_filename output_format : List Char) : List Char :=
  pathStem original_filename ++ '.' :: output_format.map lowerChar

/-- `VideoConverter._build_ffmpeg_command`. -/
def build_ffmpeg_command (input_path output_path output_format : List Char) :
    List (List Char) :=
  let base_cmd := ["ffmpeg".toList, "-i".toList, input_path, "-y".toList]
  if output_format = "mp4".toList then
    base_cmd ++ ["-c:v".toList, "libx264".toList, "-c:a".toList, "aac".toList,
      "-preset".toList, "medium".toList, "-crf".toList, "23".toList,
      "-movflags".toList, "+faststart".toList, output_path]
  else if output_format = "avi".toList then
    base_cmd ++ ["-c:v".toList, "libx264".toList, "-c:a".toList, "mp3".toList,
      "-preset".toList, "medium".toList, "-crf".toList, "23".toList, output_path]
  else if output_format = "mov".toList then
    base_cmd ++ ["-c:v".toList, "libx264".toList, "-c:a".toList, "aac".toList,
      "-preset".toList, "medium".toList, "-crf".toList, "23".toList, output_path]
  else if output_format = "webm".toList then
    base_cmd ++ ["-c:v".toList, "libvpx-vp9".toList, "-c:a".toList, "libopus".toList,
      "-crf".toList, "30".toList, "-b:v".toList, "0".toList, output_path]
  else if output_format = "mkv".toList then
    base_cmd ++ ["-c:v".toList, "libx264".toList, "-c:a".toList, "aac".toList,
      "-preset".toList, "medium".toList, "-crf".toList, "23".toList, output_path]
  else
    base_cmd ++ [output_path]

/-- `VideoConverter.convert`.  Returns the outcome, the final
temporary-file list, and the trace of subprocess invocations.  A nonzero
exit code raises `Exception("FFmpeg conversion failed: ...")`, which the
outer handler (seeing `"FFmpeg"` in the message) rewrites to the
install-hint message; a timeout propagates as the generic failure
message.  Both pass through the `finally` that unlinks the temp file. -/
def videoConvert (env : VideoEnv) (input_path tmp : List Char)
    (output_format original_filename : List Char) (fs : List (List Char)) :
    Except String ConvResult × List (List Char) × List (List (List Char) × Nat) :=
  let output_filename := video_get_output_filename original_filename output_format
  if env.ffmpegAvailable = false then
    (.error "Video conversion requires FFmpeg installation. Please use a simpler format conversion or install FFmpeg.",
     fs, [])
  else
    let fs1 := fs ++ [tmp]
    let cmd := build_ffmpeg_command input_path tmp output_format
    match env.run cmd 300 with
    | .timedOut =>
      (.error "Failed to convert video: Command timed out after 300 seconds",
       fs1.erase tmp, [(cmd, 300)])
    | .completed exitCode _stderr =>
      if exitCode ≠ 0 then
        (.error "Video conversion requires FFmpeg installation. Please use a simpler format conversion or install FFmpeg.",
         fs1.erase tmp, [(cmd, 300)])
      else
        (.ok ⟨env.outputBytes, output_filename, video_mime_types output_format⟩,
         fs1.erase tmp, [(cmd, 300)])

/-! ## app.py : convert_file and process_conversions -/

/-- One submitted conversion job (`{'file': ..., 'output_format': ...,
'file_type': ...}` in `app.py`). -/
structure Job where
  name : List Char
  bytes : List Nat
  output_format : List Char
  file_type : String

/-- The extension the converters see: `app.convert_file` copies the upload
into `tempfile.NamedTemporaryFile(suffix=f".{name.split('.')[-1]}")` and
the converter derives its input extension from that temporary path. -/
def tempFileExt (name : List Char) : List Char :=
  pyExt ("/tmp/tmp0.".toList ++ (name.splitOn '.').getLastD [])

/-- One iteration of the `process_conversions` loop body: a success with
truthy (non-empty) bytes is appended to the converted-files list, an
exception is appended to the error reports, and a success with empty
bytes (falsy `converted_data`) is silently skipped. -/
def convStep (convert_file : Job → Except String ConvResult)
    (acc : List ConvResult × List String) (job : Job) : List ConvResult × List String :=
  match convert_file job with
  | .ok r => if r.data ≠ [] then (acc.1 ++ [r], acc.2) else acc
  | .error e =>
    (acc.1, acc.2 ++ ["Failed to convert " ++ String.mk job.name ++ ": " ++ e])

/-- `process_conversions` from `app.py`: iterates over the jobs in order,
folding the loop body over the submitted list. -/
def process_conversions (convert_file : Job → Except String ConvResult)
    (jobs : List Job) : List ConvResult × List String :=
  jobs.foldl (convStep convert_file) ([], [])

/-! ## Concrete environments used by witnesses and counterexamples -/

/-- A document environment whose renderers and extractors return fixed
bytes, used to exhibit concrete behaviours. -/
def docEnvZero : DocEnv := ⟨fun _ => [], fun _ => [], fun _ => [], fun _ => []⟩

/-- Document environment whose docx renderer yields `[0]` on every text,
so rendering is distinguishable from passthrough of `[1, 2, 3]`. -/
def docEnvMark : DocEnv := ⟨fun _ => [0], fun _ => [0], fun _ => [7], fun _ => [7]⟩

/-- `convert_file` restricted to the document branch of `app.convert_file`
(the branch exercised by the dispatcher counterexample). -/
def convert_file_document (env : DocEnv) (job : Job) : Except String ConvResult :=
  if job.file_type = "document" then
    documentConvert env (tempFileExt job.name) job.bytes job.output_format job.name
  else .error ("Unsupported file type: " ++ job.file_type)

/-- An audio environment over `Unit` whose loaders always fail. -/
def audioEnvFail : AudioEnv Unit :=
  ⟨fun _ => .error "no decoder", fun _ _ => .error "no audio"⟩

/-- An audio environment over `Unit` that loads and exports successfully. -/
def audioEnvOk : AudioEnv Unit :=
  ⟨fun _ => .ok (), fun _ _ => .ok [1]⟩

/-- A video environment whose subprocess always exits with code 1. -/
def videoEnvExit1 : VideoEnv :=
  ⟨true, fun _ _ => .completed 1 "boom", [9]⟩

/-! ## Lemmas: the four format tables are pairwise disjoint -/

theorem doc_formats_disj {e : List Char} (h : e ∈ document_formats) :
    e ∉ image_formats ∧ e ∉ audio_formats ∧ e ∉ video_formats := by
  fin_cases h <;> exact ⟨by decide, by decide, by decide⟩

theorem image_formats_disj {e : List Char} (h : e ∈ image_formats) :
    e ∉ audio_formats ∧ e ∉ video_formats := by
  fin_cases h <;> exact ⟨by decide, by decide⟩

theorem audio_formats_disj {e : List Char} (h : e ∈ audio_formats) :
    e ∉ video_formats := by
  fin_cases h <;> decide

/-- C5 helper: `get_file_type` written as a chain of decisions on `pyExt`. -/
theorem get_file_type_unfold (s : List Char) :
    get_file_type s =
      (if pyExt s ∈ document_formats then "document"
       else if pyExt s ∈ image_formats then "image"
       else if pyExt s ∈ audio_formats then "audio"
       else if pyExt s ∈ video_formats then "video"
       else "unknown") := rfl

/-- C5 (counterexample): the code classifies the dotfile name `".txt"` as
`unknown` (pathlib treats the leading dot as part of a suffix-less stem),
while the claim's extension rule — substring after the last `'.'`,
lower-cased — yields `txt` and hence `document`. -/
theorem C5_counterexample :
    get_file_type ".txt".toList = "unknown" ∧
    get_file_type_claimRule ".txt".toList = "document" := by
  exact ⟨by decide, by decide⟩

/-- C5 (amended): the classifier derives the extension as
`Path(filename).suffix.lower()[1:]` — the part after the last dot of the
final path component, provided that dot is neither the component's first
nor last character — and maps it through the four fixed membership sets,
returning `unknown` exactly when the extension (possibly empty) lies in
none of them. -/
theorem C5_classifier (s : List Char) :
    (get_file_type s = "document" ↔ pyExt s ∈ document_formats) ∧
    (get_file_type s = "image" ↔ pyExt s ∈ image_formats) ∧
    (get_file_type s = "audio" ↔ pyExt s ∈ audio_formats) ∧
    (get_file_type s = "video" ↔ pyExt s ∈ video_formats) ∧
    (get_file_type s = "unknown" ↔
      pyExt s ∉ document_formats ∧ pyExt s ∉ image_formats ∧
      pyExt s ∉ audio_formats ∧ pyExt s ∉ video_formats) := by
  rw [get_file_type_unfold]
  by_cases hd : pyExt s ∈ document_formats
  · obtain ⟨n1, n2, n3⟩ := doc_formats_disj hd
    rw [if_pos hd]
    exact ⟨iff_of_true rfl hd, iff_of_false (by decide) n1,
      iff_of_false (by decide) n2, iff_of_false (by decide) n3,
      iff_of_false (by decide) (fun hn => hn.1 hd)⟩
  · rw [if_neg hd]
    by_cases hi : pyExt s ∈ image_formats
    · obtain ⟨n2, n3⟩ := image_formats_disj hi
      rw [if_pos hi]
      exact ⟨iff_of_false (by decide) hd, iff_of_true rfl hi,
        iff_of_false (by decide) n2, iff_of_false (by decide) n3,
        iff_of_false (by decide) (fun hn => hn.2.1 hi)⟩
    · rw [if_neg hi]
      by_cases ha : pyExt s ∈ audio_formats
      · have n3 := audio_formats_disj ha
        rw [if_pos ha]
        exact ⟨iff_of_false (by decide) hd, iff_of_false (by decide) hi,
          iff_of_true rfl ha, iff_of_false (by decide) n3,
          iff_of_false (by decide) (fun hn => hn.2.2.1 ha)⟩
      · rw [if_neg ha]
        by_cases hv : pyExt s ∈ video_formats
        · rw [if_pos hv]
          exact ⟨iff_of_false (by decide) hd, iff_of_false (by decide) hi,
            iff_of_false (by decide) ha, iff_of_true rfl hv,
            iff_of_false (by decide) (fun hn => hn.2.2.2 hv)⟩
        · rw [if_neg hv]
          exact ⟨iff_of_false (by decide) hd, iff_of_false (by decide) hi,
            iff_of_false (by decide) ha, iff_of_false (by decide) hv,
            iff_of_true rfl ⟨hd, hi, ha, hv⟩⟩

/-- C6: size validation fails if and only if the size strictly exceeds the
per-category ceiling — 50 MiB for video, 100 MiB for document, image and
audio, and 100 MiB by default for any unrecognized category — and a size
exactly at the ceiling passes. -/
theorem C6_size_limits (file_size : Nat) (file_type : String) :
    ((validate_file_size file_size file_type).1 = false ↔
      file_size > (if file_type = "video" then 50 * 1024 * 1024 else 100 * 1024 * 1024)) ∧
    (validate_file_size
        (if file_type = "video" then 50 * 1024 * 1024 else 100 * 1024 * 1024)
        file_type).1 = true := by
  simp only [validate_file_size, size_limits]
  split_ifs <;> simp_all

/-- C3 (counterexample): a `doc` input with target `docx` DOES receive the
raw-bytes passthrough — `_convert_from_docx` checks only the output
format — even in an environment whose extraction-and-rerender pipeline
would produce different bytes (`[0]`, not the original `[1, 2, 3]`). -/
theorem C3_counterexample :
    documentConvert docEnvMark "doc".toList [1, 2, 3] "docx".toList "a.doc".toList =
      .ok ⟨[1, 2, 3], "a.docx".toList, docxMime⟩ ∧
    docEnvMark.txtToDocxBytes (docEnvMark.extractDocxText [1, 2, 3]) = [0] ∧
    ([1, 2, 3] : List Nat) ≠ [0] := ⟨rfl, rfl, by decide⟩

/-- C3 (amended): the raw-bytes passthrough applies whenever the branch
for the declared input extension targets its own format — txt to txt, pdf
to pdf, and docx output for an input declared `doc` OR `docx`; in
particular a `doc` input converted to `docx` returns the original bytes
untouched, with no text extraction or re-rendering. -/
theorem C3_doc_to_docx_passthrough (env : DocEnv) (bytes : List Nat) (name : List Char) :
    documentConvert env "doc".toList bytes "docx".toList name =
      .ok ⟨bytes, doc_get_output_filename name "docx".toList, docxMime⟩ := by
  unfold documentConvert
  rw [if_neg (by decide), if_neg (by decide), if_pos (by decide), if_pos rfl]

/-- C8: for every supported video target the external command is the tool
name, `-i <input>`, `-y`, the format-specific codec arguments, then the
output path; the subprocess is invoked exactly once with a 300-second
timeout; and a nonzero exit code yields a failure outcome, never a
success. -/
theorem C8_ffmpeg_contract :
    (∀ inp out : List Char,
      build_ffmpeg_command inp out "mp4".toList =
        ["ffmpeg".toList, "-i".toList, inp, "-y".toList,
         "-c:v".toList, "libx264".toList, "-c:a".toList, "aac".toList,
         "-preset".toList, "medium".toList, "-crf".toList, "23".toList,
         "-movflags".toList, "+faststart".toList, out] ∧
      build_ffmpeg_command inp out "avi".toList =
        ["ffmpeg".toList, "-i".toList, inp, "-y".toList,
         "-c:v".toList, "libx264".toList, "-c:a".toList, "mp3".toList,
         "-preset".toList, "medium".toList, "-crf".toList, "23".toList, out] ∧
      build_ffmpeg_command inp out "mov".toList =
        ["ffmpeg".toList, "-i".toList, inp, "-y".toList,
         "-c:v".toList, "libx264".toList, "-c:a".toList, "aac".toList,
         "-preset".toList, "medium".toList, "-crf".toList, "23".toList, out] ∧
      build_ffmpeg_command inp out "mkv".toList =
        ["ffmpeg".toList, "-i".toList, inp, "-y".toList,
         "-c:v".toList, "libx264".toList, "-c:a".toList, "aac".toList,
         "-preset".toList, "medium".toList, "-crf".toList, "23".toList, out] ∧
      build_ffmpeg_command inp out "webm".toList =
        ["ffmpeg".toList, "-i".toList, inp, "-y".toList,
         "-c:v".toList, "libvpx-vp9".toList, "-c:a".toList, "libopus".toList,
         "-crf".toList, "30".toList, "-b:v".toList, "0".toList, out]) ∧
    (∀ (env : VideoEnv) inp tmp fmt orig fs, env.ffmpegAvailable = true →
      (videoConvert env inp tmp fmt orig fs).2.2 =
        [(build_ffmpeg_command inp tmp fmt, 300)]) ∧
    (∀ (env : VideoEnv) inp tmp fmt orig fs (rc : Int) (err : String),
      env.ffmpegAvailable = true →
      env.run (build_ffmpeg_command inp tmp fmt) 300 = .completed rc err →
      rc ≠ 0 →
      ∃ e, (videoConvert env inp tmp fmt orig fs).1 = .error e) := by
  refine ⟨fun inp out => ⟨rfl, rfl, rfl, rfl, rfl⟩, ?_, ?_⟩
  · intro env inp tmp fmt orig fs hav
    unfold videoConvert
    rw [if_neg (by simp [hav])]
    dsimp only
    cases hrun : env.run (build_ffmpeg_command inp tmp fmt) 300 with
    | timedOut => rfl
    | completed rc err =>
      dsimp only
      split <;> rfl
  · intro env inp tmp fmt orig fs rc err hav hrun hrc
    unfold videoConvert
    rw [if_neg (by simp [hav])]
    dsimp only
    rw [hrun]
    dsimp only
    rw [if_pos hrc]
    exact ⟨_, rfl⟩

/-- Helper: removing a freshly created temporary name recovers the
original file list. -/
theorem erase_fresh_tmp (fs : List (List Char)) (tmp : List Char) (h : tmp ∉ fs) :
    (fs ++ [tmp]).erase tmp = fs := by
  rw [List.erase_append_right _ h]
  simp

/-- Helper: `_export_audio` restores the temporary-file list on every path. -/
theorem audioExport_fs {α : Type} (env : AudioEnv α) (a : α)
    (fmt outName tmp : List Char) (fs : List (List Char)) (h : tmp ∉ fs) :
    (audioExport env a fmt outName tmp fs).2 = fs := by
  unfold audioExport
  cases hexp : audioExportDispatch env a fmt with
  | ok data => simp [hexp, erase_fresh_tmp fs tmp h]
  | error e => simp [hexp, erase_fresh_tmp fs tmp h]

/-- C9: on every exit path — success, nonzero exit, timeout, unsupported
format — `VideoConverter.convert`, `AudioConverter._export_audio` and
`AudioConverter.convert` delete the temporary output files they created:
the temporary-file list after the call equals the one before it. -/
theorem C9_temp_cleanup :
    (∀ (env : VideoEnv) inp tmp fmt orig fs, tmp ∉ fs →
      (videoConvert env inp tmp fmt orig fs).2.1 = fs) ∧
    (∀ {α : Type} (env : AudioEnv α) (a : α) fmt outName tmp fs, tmp ∉ fs →
      (audioExport env a fmt outName tmp fs).2 = fs) ∧
    (∀ {α : Type} (env : AudioEnv α) ext fmt orig tmp1 tmp2 fs,
      tmp1 ∉ fs → tmp2 ∉ fs →
      (audioConvert env ext fmt orig tmp1 tmp2 fs).2.2 = fs) := by
  refine ⟨?_, ?_, ?_⟩
  · intro env inp tmp fmt orig fs h
    unfold videoConvert
    by_cases hav : env.ffmpegAvailable = false
    · rw [if_pos hav]
    · rw [if_neg hav]
      dsimp only
      cases env.run (build_ffmpeg_command inp tmp fmt) 300 with
      | timedOut => simp [erase_fresh_tmp fs tmp h]
      | completed rc err =>
        dsimp only
        split <;> simp [erase_fresh_tmp fs tmp h]
  · exact fun env a fmt outName tmp fs h => audioExport_fs env a fmt outName tmp fs h
  · intro α env ext fmt orig tmp1 tmp2 fs h1 h2
    unfold audioConvert
    dsimp only
    cases env.runLoader (loaderFor ext) with
    | ok a =>
      dsimp only
      rcases hq1 : audioExport env a fmt (audio_get_output_filename orig fmt) tmp1 fs
        with ⟨r1, fs1⟩
      have hfs1 : fs1 = fs := by
        have := audioExport_fs env a fmt (audio_get_output_filename orig fmt) tmp1 fs h1
        rw [hq1] at this
        exact this
      cases r1 with
      | ok r => exact hfs1
      | error e =>
        dsimp only
        cases env.runLoader .fromFileGeneric with
        | ok a2 =>
          dsimp only
          rcases hq2 : audioExport env a2 fmt (audio_get_output_filename orig fmt) tmp2 fs1
            with ⟨r2, fs2⟩
          have hfs2 : fs2 = fs1 := by
            have := audioExport_fs env a2 fmt (audio_get_output_filename orig fmt) tmp2 fs1
              (hfs1 ▸ h2)
            rw [hq2] at this
            exact this
          cases r2 with
          | ok r => exact hfs2.trans hfs1
          | error e2 => exact hfs2.trans hfs1
        | error e2 => exact hfs1
    | error e =>
      dsimp only
      cases env.runLoader .fromFileGeneric with
      | ok a2 =>
        dsimp only
        rcases hq2 : audioExport env a2 fmt (audio_get_output_filename orig fmt) tmp2 fs
          with ⟨r2, fs2⟩
        have hfs2 : fs2 = fs := by
          have := audioExport_fs env a2 fmt (audio_get_output_filename orig fmt) tmp2 fs h2
          rw [hq2] at this
          exact this
        cases r2 with
        | ok r => exact hfs2
        | error e2 => exact hfs2
      | error e2 => rfl

/-! ## C7: audio decode fallback -/

/-- Helper: lower-casing fixes the three document output formats. -/
theorem lower_txt : "txt".toList.map lowerChar = "txt".toList := by decide

theorem lower_pdf : "pdf".toList.map lowerChar = "pdf".toList := by decide

theorem lower_docx : "docx".toList.map lowerChar = "docx".toList := by decide

/-- Helper: the five supported audio extensions use a dedicated loader, not
the generic one. -/
theorem loaderFor_specific {ext : List Char}
    (h : ext ∈ ["mp3".toList, "wav".toList, "m4a".toList, "ogg".toList, "flac".toList]) :
    loaderFor ext ≠ Loader.fromFileGeneric := by
  fin_cases h <;> decide

/-- C7: when the extension-specific loader for a supported declared input
extension throws, the generic auto-detecting loader is attempted exactly
once before the conversion gives up, and if that fallback also fails the
outcome is the decode-failure error carrying both error messages. -/
theorem C7_audio_fallback {α : Type} (env : AudioEnv α)
    (ext fmt orig tmp1 tmp2 : List Char) (fs : List (List Char)) (e1 : String)
    (hext : ext ∈ ["mp3".toList, "wav".toList, "m4a".toList, "ogg".toList, "flac".toList])
    (hl : env.runLoader (loaderFor ext) = .error e1) :
    (audioConvert env ext fmt orig tmp1 tmp2 fs).2.1 =
      [loaderFor ext, Loader.fromFileGeneric] ∧
    (audioConvert env ext fmt orig tmp1 tmp2 fs).2.1.count Loader.fromFileGeneric = 1 ∧
    (∀ e2, env.runLoader Loader.fromFileGeneric = .error e2 →
      (audioConvert env ext fmt orig tmp1 tmp2 fs).1 =
        .error ("Failed to convert audio: " ++ e1 ++ ". Fallback also failed: " ++ e2)) := by
  have htrace : (audioConvert env ext fmt orig tmp1 tmp2 fs).2.1 =
      [loaderFor ext, Loader.fromFileGeneric] := by
    unfold audioConvert
    dsimp only
    rw [hl]
    dsimp only
    cases env.runLoader Loader.fromFileGeneric with
    | ok a2 =>
      dsimp only
      rcases audioExport env a2 fmt (audio_get_output_filename orig fmt) tmp2 fs
        with ⟨r2, fs2⟩
      cases r2 with
      | ok r => rfl
      | error e2 => rfl
    | error e2 => rfl
  refine ⟨htrace, ?_, ?_⟩
  · rw [htrace]
    have hne := loaderFor_specific hext
    simp [List.count_cons, hne]
  · intro e2 he2
    unfold audioConvert
    dsimp only
    rw [hl]
    dsimp only
    rw [he2]

/-! ## C2: output filename rule -/

/-- Helper: whenever `DocumentConverter.convert` returns, the filename is
the one `_get_output_filename` built. -/
theorem documentConvert_ok_filename {env : DocEnv} {ext : List Char} {bytes : List Nat}
    {fmt orig : List Char} {r : ConvResult}
    (h : documentConvert env ext bytes fmt orig = .ok r) :
    r.filename = doc_get_output_filename orig fmt := by
  unfold documentConvert at h
  dsimp only at h
  split_ifs at h <;>
    first
      | (simp only [Except.ok.injEq] at h; rw [← h])
      | simp at h

/-- Helper: `DocumentConverter.convert` returns only for the three
lower-case output formats (anything else raises `ValueError`). -/
theorem documentConvert_ok_format {env : DocEnv} {ext : List Char} {bytes : List Nat}
    {fmt orig : List Char} {r : ConvResult}
    (h : documentConvert env ext bytes fmt orig = .ok r) :
    fmt = "txt".toList ∨ fmt = "pdf".toList ∨ fmt = "docx".toList := by
  unfold documentConvert at h
  dsimp only at h
  split_ifs at h <;>
    first
      | tauto
      | simp at h

/-- Helper: whenever `_export_audio` succeeds, the filename is the one it
was handed. -/
theorem audioExport_ok_filename {α : Type} {env : AudioEnv α} {a : α}
    {fmt outName tmp : List Char} {fs : List (List Char)} {r : ConvResult}
    (h : (audioExport env a fmt outName tmp fs).1 = .ok r) :
    r.filename = outName := by
  unfold audioExport at h
  dsimp only at h
  cases hexp : audioExportDispatch env a fmt with
  | ok data =>
    rw [hexp] at h
    dsimp only at h
    simp only [Except.ok.injEq] at h
    rw [← h]
  | error e =>
    rw [hexp] at h
    simp at h

/-- C2: for all four converters, whenever `convert` returns (rather than
raising), the output filename is the stem of the original filename,
a dot, and the lower-cased target extension.  (The document converter
omits `.lower()` in `_get_output_filename`, but it only ever returns for
the already-lower-case formats txt/pdf/docx, so the rule still holds.) -/
theorem C2_output_filename :
    (∀ (env : DocEnv) (ext : List Char) (bytes : List Nat) (fmt orig : List Char)
        (r : ConvResult),
      documentConvert env ext bytes fmt orig = .ok r →
      r.filename = pathStem orig ++ '.' :: fmt.map lowerChar) ∧
    (∀ {α : Type} (env : ImgEnv α) (fmt orig : List Char) (r : ConvResult),
      imageConvert env fmt orig = .ok r →
      r.filename = pathStem orig ++ '.' :: fmt.map lowerChar) ∧
    (∀ {α : Type} (env : AudioEnv α) (ext fmt orig tmp1 tmp2 : List Char)
        (fs : List (List Char)) (r : ConvResult),
      (audioConvert env ext fmt orig tmp1 tmp2 fs).1 = .ok r →
      r.filename = pathStem orig ++ '.' :: fmt.map lowerChar) ∧
    (∀ (env : VideoEnv) (inp tmp fmt orig : List Char) (fs : List (List Char))
        (r : ConvResult),
      (videoConvert env inp tmp fmt orig fs).1 = .ok r →
      r.filename = pathStem orig ++ '.' :: fmt.map lowerChar) := by
  refine ⟨?_, ?_, ?_, ?_⟩
  · intro env ext bytes fmt orig r h
    rw [documentConvert_ok_filename h]
    rcases documentConvert_ok_format h with hf | hf | hf <;>
      subst hf <;>
      simp [doc_get_output_filename, lower_txt, lower_pdf, lower_docx] <;>
      decide
  · intro α env fmt orig r h
    unfold imageConvert at h
    dsimp only at h
    cases henv : env.openImage with
    | error e => rw [henv] at h; simp at h
    | ok img =>
      rw [henv] at h
      dsimp only at h
      split_ifs at h <;>
        first
          | (simp only [Except.ok.injEq] at h; rw [← h]; rfl)
          | simp at h
  · intro α env ext fmt orig tmp1 tmp2 fs r h
    unfold audioConvert at h
    dsimp only at h
    cases hl : env.runLoader (loaderFor ext) with
    | ok a =>
      rw [hl] at h
      dsimp only at h
      rcases hq1 : audioExport env a fmt (audio_get_output_filename orig fmt) tmp1 fs
        with ⟨r1, fs1⟩
      rw [hq1] at h
      cases r1 with
      | ok r' =>
        dsimp only at h
        simp only [Except.ok.injEq] at h
        have hf : (audioExport env a fmt (audio_get_output_filename orig fmt) tmp1 fs).1 =
            .ok r' := by rw [hq1]
        rw [← h, audioExport_ok_filename hf]
        rfl
      | error e =>
        dsimp only at h
        cases hg : env.runLoader Loader.fromFileGeneric with
        | ok a2 =>
          rw [hg] at h
          dsimp only at h
          rcases hq2 : audioExport env a2 fmt (audio_get_output_filename orig fmt) tmp2 fs1
            with ⟨r2, fs2⟩
          rw [hq2] at h
          cases r2 with
          | ok r' =>
            dsimp only at h
            simp only [Except.ok.injEq] at h
            have hf : (audioExport env a2 fmt (audio_get_output_filename orig fmt) tmp2 fs1).1 =
                .ok r' := by rw [hq2]
            rw [← h, audioExport_ok_filename hf]
            rfl
          | error e2 => simp at h
        | error e2 => rw [hg] at h; simp at h
    | error e =>
      rw [hl] at h
      dsimp only at h
      cases hg : env.runLoader Loader.fromFileGeneric with
      | ok a2 =>
        rw [hg] at h
        dsimp only at h
        rcases hq2 : audioExport env a2 fmt (audio_get_output_filename orig fmt) tmp2 fs
          with ⟨r2, fs2⟩
        rw [hq2] at h
        cases r2 with
        | ok r' =>
          dsimp only at h
          simp only [Except.ok.injEq] at h
          have hf : (audioExport env a2 fmt (audio_get_output_filename orig fmt) tmp2 fs).1 =
              .ok r' := by rw [hq2]
          rw [← h, audioExport_ok_filename hf]
          rfl
        | error e2 => simp at h
      | error e2 => rw [hg] at h; simp at h
  · intro env inp tmp fmt orig fs r h
    unfold videoConvert at h
    by_cases hav : env.ffmpegAvailable = false
    · rw [if_pos hav] at h; simp at h
    · rw [if_neg hav] at h
      dsimp only at h
      cases hrun : env.run (build_ffmpeg_command inp tmp fmt) 300 with
      | timedOut => rw [hrun] at h; simp at h
      | completed rc err =>
        rw [hrun] at h
        dsimp only at h
        split_ifs at h <;>
          first
            | (simp only [Except.ok.injEq] at h; rw [← h]; try rfl)
            | simp at h

/-! ## C4: dispatcher outcome accounting -/

/-- Helper: one loop step adds at most one entry across the two lists. -/
theorem convStep_len (cf : Job → Except String ConvResult)
    (acc : List ConvResult × List String) (j : Job) :
    (convStep cf acc j).1.length + (convStep cf acc j).2.length ≤
      acc.1.length + acc.2.length + 1 := by
  unfold convStep
  cases cf j with
  | ok r =>
    dsimp only
    split <;> simp <;> omega
  | error e =>
    simp
    omega

/-- Helper: the fold adds at most one entry per job. -/
theorem foldl_convStep_len (cf : Job → Except String ConvResult) (jobs : List Job) :
    ∀ acc : List ConvResult × List String,
      (jobs.foldl (convStep cf) acc).1.length + (jobs.foldl (convStep cf) acc).2.length ≤
        acc.1.length + acc.2.length + jobs.length := by
  induction jobs with
  | nil => intro acc; simp
  | cons j js ih =>
    intro acc
    rw [List.foldl_cons]
    calc (js.foldl (convStep cf) (convStep cf acc j)).1.length +
          (js.foldl (convStep cf) (convStep cf acc j)).2.length ≤
        (convStep cf acc j).1.length + (convStep cf acc j).2.length + js.length :=
          ih (convStep cf acc j)
      _ ≤ acc.1.length + acc.2.length + 1 + js.length := by
          have := convStep_len cf acc j
          omega
      _ = acc.1.length + acc.2.length + (j :: js).length := by
          simp [List.length_cons]
          omega

/-- Helper: when every job converts successfully with non-empty bytes,
the fold appends exactly the per-job results in submission order. -/
theorem foldl_convStep_map (cf : Job → Except String ConvResult) (f : Job → ConvResult) :
    ∀ (jobs : List Job) (acc : List ConvResult × List String),
      (∀ j ∈ jobs, cf j = .ok (f j) ∧ (f j).data ≠ []) →
      jobs.foldl (convStep cf) acc = (acc.1 ++ jobs.map f, acc.2) := by
  intro jobs
  induction jobs with
  | nil => intro acc _; simp
  | cons j js ih =>
    intro acc h
    have hj := h j (List.mem_cons_self j js)
    rw [List.foldl_cons]
    have hstep : convStep cf acc j = (acc.1 ++ [f j], acc.2) := by
      unfold convStep
      rw [hj.1]
      dsimp only
      rw [if_pos hj.2]
    rw [hstep, ih _ (fun j' hj' => h j' (List.mem_cons_of_mem j hj'))]
    simp

/-- C4 (counterexample): a one-job batch whose conversion yields empty
bytes (an empty txt file converted to txt) produces NO outcome at all —
neither a converted-files entry nor an error report — so the outcome
count is 0 while the job count is 1. -/
theorem C4_counterexample :
    (process_conversions (convert_file_document docEnvZero)
        [⟨"a.txt".toList, [], "txt".toList, "document"⟩]).1.length = 0 ∧
    (process_conversions (convert_file_document docEnvZero)
        [⟨"a.txt".toList, [], "txt".toList, "document"⟩]).2.length = 0 ∧
    ([(⟨"a.txt".toList, [], "txt".toList, "document"⟩ : Job)]).length = 1 := by
  have hext : tempFileExt "a.txt".toList = "txt".toList := by decide
  have hread : utf8Encode (readTxt []) = [] := by
    simp [readTxt, utf8DecodeIgnore, univNewlines, utf8Encode]
  have hconv : convert_file_document docEnvZero ⟨"a.txt".toList, [], "txt".toList, "document"⟩ =
      .ok ⟨[], "a.txt".toList, "text/plain"⟩ := by
    unfold convert_file_document
    rw [if_pos rfl, hext]
    unfold documentConvert
    dsimp only
    rw [if_pos rfl, if_pos rfl, hread,
      show doc_get_output_filename "a.txt".toList "txt".toList = "a.txt".toList from by decide]
  have hone : process_conversions (convert_file_document docEnvZero)
      [⟨"a.txt".toList, [], "txt".toList, "document"⟩] = ([], []) := by
    unfold process_conversions
    rw [List.foldl_cons, List.foldl_nil]
    unfold convStep
    rw [hconv]
    dsimp only
    rw [if_neg (by simp)]
  refine ⟨?_, ?_, rfl⟩ <;> rw [hone] <;> rfl

/-- C4 (amended): each job yields at most one outcome (converted-files
entry or error report), so the combined outcome count never exceeds the
job count; when every job converts successfully with non-empty bytes
there is exactly one converted-files entry per job, and the i-th entry is
the result of the i-th submitted job (`outcomes = jobs.map f`); but a
failing job contributes only an error report, and a success with empty
bytes contributes nothing, so equality of counts does not hold for every
batch. -/
theorem C4_outcome_accounting :
    (∀ (cf : Job → Except String ConvResult) (jobs : List Job),
      (process_conversions cf jobs).1.length + (process_conversions cf jobs).2.length ≤
        jobs.length) ∧
    (∀ (cf : Job → Except String ConvResult) (f : Job → ConvResult) (jobs : List Job),
      (∀ j ∈ jobs, cf j = .ok (f j) ∧ (f j).data ≠ []) →
      process_conversions cf jobs = (jobs.map f, [])) := by
  constructor
  · intro cf jobs
    have := foldl_convStep_len cf jobs ([], [])
    simpa [process_conversions] using this
  · intro cf f jobs h
    have := foldl_convStep_map cf f jobs ([], []) h
    simpa [process_conversions] using this

/-! ## C10: clean_filename invariants and idempotence -/

theorem mem_replaceChar {x c : Char} {l : List Char} (h : x ∈ replaceChar c l) :
    x = '_' ∨ x ∈ l := by
  unfold replaceChar at h
  rcases List.mem_map.mp h with ⟨y, hy, hxy⟩
  by_cases hyc : y = c
  · rw [if_pos hyc] at hxy
    exact Or.inl hxy.symm
  · rw [if_neg hyc] at hxy
    exact Or.inr (hxy ▸ hy)

theorem not_mem_replaceChar {x c : Char} {l : List Char}
    (hx : x ∉ l) (hu : x ≠ '_') : x ∉ replaceChar c l := by
  intro h
  rcases mem_replaceChar h with h1 | h1
  · exact hu h1
  · exact hx h1

theorem not_mem_replaceChar_self {c : Char} {l : List Char} (hc : c ≠ '_') :
    c ∉ replaceChar c l := by
  intro h
  unfold replaceChar at h
  rcases List.mem_map.mp h with ⟨y, _, hxy⟩
  by_cases hyc : y = c
  · rw [if_pos hyc] at hxy
    exact hc hxy.symm
  · rw [if_neg hyc] at hxy
    exact hyc hxy

/-- Helper: the replace fold never introduces a character other than `'_'`. -/
theorem foldl_replace_not_mem (cs : List Char) :
    ∀ (l : List Char) (x : Char), x ∉ l → x ≠ '_' →
      x ∉ cs.foldl (fun acc c => replaceChar c acc) l := by
  induction cs with
  | nil => intro l x hx _; simpa using hx
  | cons c cs ih =>
    intro l x hx hu
    rw [List.foldl_cons]
    exact ih (replaceChar c l) x (not_mem_replaceChar hx hu) hu

/-- Helper: after the fold, every processed character is gone. -/
theorem foldl_replace_removes (cs : List Char) :
    ∀ (l : List Char) (x : Char), x ∈ cs → x ≠ '_' →
      x ∉ cs.foldl (fun acc c => replaceChar c acc) l := by
  induction cs with
  | nil => intro l x hx _; simp at hx
  | cons c cs ih =>
    intro l x hx hu
    rw [List.foldl_cons]
    rcases List.mem_cons.mp hx with rfl | hx'
    · exact foldl_replace_not_mem cs (replaceChar x l) x (not_mem_replaceChar_self hu) hu
    · exact ih (replaceChar c l) x hx' hu

theorem not_mem_replaceInvalid {c : Char} (l : List Char) (h : c ∈ invalid_chars) :
    c ∉ replaceInvalid l := by
  have hu : c ≠ '_' := by fin_cases h <;> decide
  exact foldl_replace_removes invalid_chars l c h hu

theorem mem_repDD {x : Char} {l : List Char} (h : x ∈ repDD l) : x ∈ l := by
  induction l using repDD.induct with
  | case1 => simpa [repDD] using h
  | case2 c => simpa [repDD] using h
  | case3 c1 c2 r hu ih =>
    rw [repDD, if_pos hu] at h
    rcases List.mem_cons.mp h with rfl | h'
    · simp [hu.1]
    · simp [ih h']
  | case4 c1 c2 r hu ih =>
    rw [repDD, if_neg hu] at h
    rcases List.mem_cons.mp h with rfl | h'
    · simp
    · simp [List.mem_cons.mp (ih h')]

theorem mem_collapseDD {x : Char} (l : List Char) (h : x ∈ collapseDD l) : x ∈ l := by
  by_cases hd : hasDD l = true
  · rw [collapseDD, dif_pos hd] at h
    exact mem_repDD (mem_collapseDD (repDD l) h)
  · rw [collapseDD, dif_neg hd] at h
    exact h
termination_by l.length
decreasing_by exact repDD_length_lt l hd

theorem hasDD_collapseDD (l : List Char) : hasDD (collapseDD l) = false := by
  by_cases hd : hasDD l = true
  · rw [collapseDD, dif_pos hd]
    exact hasDD_collapseDD (repDD l)
  · rw [collapseDD, dif_neg hd]
    exact Bool.not_eq_true _ ▸ hd
termination_by l.length
decreasing_by exact repDD_length_lt l hd

theorem hasDD_tail {x : Char} {l : List Char} (h : hasDD (x :: l) = false) :
    hasDD l = false := by
  cases l with
  | nil => rfl
  | cons y r =>
    by_cases hc : x = '_' ∧ y = '_'
    · rw [hasDD, if_pos hc] at h
      exact absurd h (by simp)
    · rw [hasDD, if_neg hc] at h
      exact h

theorem hasDD_append_right {a b : List Char} (h : hasDD (a ++ b) = false) :
    hasDD b = false := by
  induction a with
  | nil => simpa using h
  | cons x a ih => exact ih (hasDD_tail h)

theorem hasDD_append_left {a b : List Char} (h : hasDD (a ++ b) = false) :
    hasDD a = false := by
  induction a with
  | nil => rfl
  | cons x a ih =>
    have ha := ih (hasDD_tail h)
    cases a with
    | nil => rfl
    | cons y a' =>
      by_cases hc : x = '_' ∧ y = '_'
      · rw [List.cons_append, List.cons_append, hasDD, if_pos hc] at h
        exact absurd h (by simp)
      · rw [hasDD, if_neg hc]
        exact ha

/-- Helper: the head surviving `dropWhile` fails the predicate. -/
theorem head?_dropWhile_false {p : Char → Bool} {l : List Char} {x : Char}
    (h : (l.dropWhile p).head? = some x) : p x = false := by
  induction l with
  | nil => simp at h
  | cons c r ih =>
    rw [List.dropWhile_cons] at h
    by_cases hp : p c = true
    · rw [if_pos hp] at h
      exact ih h
    · rw [if_neg hp] at h
      simp only [List.head?_cons, Option.some.injEq] at h
      rw [← h]
      exact Bool.not_eq_true _ ▸ hp

/-- Helper: `stripUS l` is a prefix of `dropWhile` applied to `l`. -/
theorem stripUS_prefix (l : List Char) :
    stripUS l <+: l.dropWhile (fun c => c = '_' ∨ c = ' ') := by
  unfold stripUS
  have h1 := @List.dropWhile_suffix Char ((l.dropWhile (fun c => c = '_' ∨ c = ' ')).reverse)
    (fun c => decide (c = '_' ∨ c = ' '))
  have h2 := h1.reverse
  rwa [List.reverse_reverse] at h2

theorem mem_stripUS {x : Char} {l : List Char} (h : x ∈ stripUS l) : x ∈ l := by
  rcases stripUS_prefix l with ⟨t, ht⟩
  have hx : x ∈ l.dropWhile (fun c => c = '_' ∨ c = ' ') := by
    rw [← ht]
    exact List.mem_append_left t h
  exact (List.dropWhile_sublist _).mem hx

theorem hasDD_stripUS {l : List Char} (h : hasDD l = false) :
    hasDD (stripUS l) = false := by
  have hm : hasDD (l.dropWhile (fun c => c = '_' ∨ c = ' ')) = false := by
    rcases @List.dropWhile_suffix Char l (fun c => decide (c = '_' ∨ c = ' ')) with ⟨t, ht⟩
    exact hasDD_append_right (ht ▸ h)
  rcases stripUS_prefix l with ⟨t, ht⟩
  exact hasDD_append_left (ht ▸ hm)

theorem stripUS_head {l : List Char} {x : Char} (h : (stripUS l).head? = some x) :
    x ≠ '_' ∧ x ≠ ' ' := by
  rcases stripUS_prefix l with ⟨t, ht⟩
  have hm : (l.dropWhile (fun c => c = '_' ∨ c = ' ')).head? = some x := by
    rw [← ht, List.head?_append, h]
    rfl
  have := head?_dropWhile_false hm
  simpa using this

theorem stripUS_getLast {l : List Char} {x : Char} (h : (stripUS l).getLast? = some x) :
    x ≠ '_' ∧ x ≠ ' ' := by
  unfold stripUS at h
  rw [List.getLast?_reverse] at h
  have := head?_dropWhile_false h
  simpa using this

/-- Helper: `dropWhile` is the identity when the head fails the predicate. -/
theorem dropWhile_eq_self_of_head {p : Char → Bool} {l : List Char}
    (h : ∀ x, l.head? = some x → p x = false) : l.dropWhile p = l := by
  cases l with
  | nil => rfl
  | cons c r =>
    rw [List.dropWhile_cons, if_neg]
    simp [h c rfl]

theorem stripUS_eq_self {l : List Char}
    (hh : ∀ x, l.head? = some x → x ≠ '_' ∧ x ≠ ' ')
    (hl : ∀ x, l.getLast? = some x → x ≠ '_' ∧ x ≠ ' ') : stripUS l = l := by
  unfold stripUS
  rw [@dropWhile_eq_self_of_head (fun c => decide (c = '_' ∨ c = ' ')) l
    (fun x hx => by simpa using hh x hx)]
  rw [@dropWhile_eq_self_of_head (fun c => decide (c = '_' ∨ c = ' ')) l.reverse
    (fun x hx => by
      rw [List.head?_reverse] at hx
      simpa using hl x hx)]
  exact List.reverse_reverse l

theorem replaceChar_eq_self {c : Char} {l : List Char} (h : c ∉ l) :
    replaceChar c l = l := by
  induction l with
  | nil => rfl
  | cons x r ih =>
    unfold replaceChar at ih ⊢
    have hxc : ¬(x = c) := fun he => h (List.mem_cons.mpr (Or.inl he.symm))
    rw [List.map_cons, if_neg hxc, ih (fun hc => h (List.mem_cons_of_mem x hc))]

theorem foldl_replace_eq_self (cs : List Char) :
    ∀ l : List Char, (∀ x ∈ l, x ∉ cs) →
      cs.foldl (fun acc c => replaceChar c acc) l = l := by
  induction cs with
  | nil => intro l _; rfl
  | cons c cs ih =>
    intro l h
    rw [List.foldl_cons, replaceChar_eq_self (fun hc => (h c hc) (by simp)),
      ih l (fun x hx hmem => h x hx (List.mem_cons_of_mem c hmem))]

theorem collapseDD_eq_self {l : List Char} (h : hasDD l = false) : collapseDD l = l := by
  rw [collapseDD, dif_neg (by simp [h])]

theorem replaceInvalid_eq_self {l : List Char} (h : ∀ x ∈ l, x ∉ invalid_chars) :
    replaceInvalid l = l :=
  foldl_replace_eq_self invalid_chars l h

/-- C10: `clean_filename` output contains none of the nine forbidden
characters, has no two consecutive underscores, neither starts nor ends
with an underscore or a space, and consequently the operation is
idempotent. -/
theorem C10_clean_filename (l : List Char) :
    (∀ c ∈ invalid_chars, c ∉ clean_filename l) ∧
    hasDD (clean_filename l) = false ∧
    (∀ x, (clean_filename l).head? = some x → x ≠ '_' ∧ x ≠ ' ') ∧
    (∀ x, (clean_filename l).getLast? = some x → x ≠ '_' ∧ x ≠ ' ') ∧
    clean_filename (clean_filename l) = clean_filename l := by
  have hinv : ∀ c ∈ invalid_chars, c ∉ clean_filename l := by
    intro c hc hmem
    exact not_mem_replaceInvalid l hc (mem_collapseDD _ (mem_stripUS hmem))
  have hdd : hasDD (clean_filename l) = false :=
    hasDD_stripUS (hasDD_collapseDD (replaceInvalid l))
  have hhead : ∀ x, (clean_filename l).head? = some x → x ≠ '_' ∧ x ≠ ' ' :=
    fun x hx => stripUS_head hx
  have hlast : ∀ x, (clean_filename l).getLast? = some x → x ≠ '_' ∧ x ≠ ' ' :=
    fun x hx => stripUS_getLast hx
  refine ⟨hinv, hdd, hhead, hlast, ?_⟩
  show stripUS (collapseDD (replaceInvalid (clean_filename l))) = clean_filename l
  rw [replaceInvalid_eq_self (fun x hx hc => hinv x hc hx),
    collapseDD_eq_self hdd, stripUS_eq_self hhead hlast]

/-! ## C1: UTF-8 round trip for the txt identity path -/

theorem decodeOne_ascii {b0 : Nat} (r : List Nat) (h : b0 < 0x80) :
    decodeOne b0 r = some (b0, 0) := by
  unfold decodeOne
  rw [if_pos h]

theorem decodeOne_two {b0 b1 : Nat} (r : List Nat)
    (h1 : 0xC2 ≤ b0) (h2 : b0 ≤ 0xDF) (h3 : 0x80 ≤ b1) (h4 : b1 ≤ 0xBF) :
    decodeOne b0 (b1 :: r) = some ((b0 - 0xC0) * 0x40 + (b1 - 0x80), 1) := by
  unfold decodeOne
  rw [if_neg (by omega), if_pos ⟨h1, h2, by simp, h3, h4⟩]
  rfl

theorem decodeOne_threeE0 {b1 b2 : Nat} (r : List Nat)
    (h1 : 0xA0 ≤ b1) (h2 : b1 ≤ 0xBF) (h3 : 0x80 ≤ b2) (h4 : b2 ≤ 0xBF) :
    decodeOne 0xE0 (b1 :: b2 :: r) = some (cp3 0xE0 b1 b2, 2) := by
  unfold decodeOne
  rw [if_neg (by omega), if_neg (by omega),
    if_pos ⟨rfl, by simp, h1, h2, h3, h4⟩]
  rfl

theorem decodeOne_threeED {b1 b2 : Nat} (r : List Nat)
    (h1 : 0x80 ≤ b1) (h2 : b1 ≤ 0x9F) (h3 : 0x80 ≤ b2) (h4 : b2 ≤ 0xBF) :
    decodeOne 0xED (b1 :: b2 :: r) = some (cp3 0xED b1 b2, 2) := by
  unfold decodeOne
  rw [if_neg (by omega), if_neg (by omega), if_neg (by omega),
    if_pos ⟨rfl, by simp, h1, h2, h3, h4⟩]
  rfl

theorem decodeOne_threeMid {b0 b1 b2 : Nat} (r : List Nat)
    (h0 : 0xE1 ≤ b0) (h0' : b0 ≤ 0xEF) (hED : b0 ≠ 0xED)
    (h1 : 0x80 ≤ b1) (h2 : b1 ≤ 0xBF) (h3 : 0x80 ≤ b2) (h4 : b2 ≤ 0xBF) :
    decodeOne b0 (b1 :: b2 :: r) = some (cp3 b0 b1 b2, 2) := by
  unfold decodeOne
  rw [if_neg (by omega), if_neg (by omega), if_neg (by omega), if_neg (by omega),
    if_pos ⟨h0, h0', hED, by simp, h1, h2, h3, h4⟩]
  rfl

theorem decodeOne_fourF0 {b1 b2 b3 : Nat} (r : List Nat)
    (h1 : 0x90 ≤ b1) (h2 : b1 ≤ 0xBF) (h3 : 0x80 ≤ b2) (h4 : b2 ≤ 0xBF)
    (h5 : 0x80 ≤ b3) (h6 : b3 ≤ 0xBF) :
    decodeOne 0xF0 (b1 :: b2 :: b3 :: r) = some (cp4 0xF0 b1 b2 b3, 3) := by
  unfold decodeOne
  rw [if_neg (by omega), if_neg (by omega), if_neg (by omega), if_neg (by omega),
    if_neg (by omega), if_pos ⟨rfl, by simp, h1, h2, h3, h4, h5, h6⟩]
  rfl

theorem decodeOne_fourMid {b0 b1 b2 b3 : Nat} (r : List Nat)
    (h0 : 0xF1 ≤ b0) (h0' : b0 ≤ 0xF3)
    (h1 : 0x80 ≤ b1) (h2 : b1 ≤ 0xBF) (h3 : 0x80 ≤ b2) (h4 : b2 ≤ 0xBF)
    (h5 : 0x80 ≤ b3) (h6 : b3 ≤ 0xBF) :
    decodeOne b0 (b1 :: b2 :: b3 :: r) = some (cp4 b0 b1 b2 b3, 3) := by
  unfold decodeOne
  rw [if_neg (by omega), if_neg (by omega), if_neg (by omega), if_neg (by omega),
    if_neg (by omega), if_neg (by omega),
    if_pos ⟨h0, h0', by simp, h1, h2, h3, h4, h5, h6⟩]
  rfl

theorem decodeOne_fourF4 {b1 b2 b3 : Nat} (r : List Nat)
    (h1 : 0x80 ≤ b1) (h2 : b1 ≤ 0x8F) (h3 : 0x80 ≤ b2) (h4 : b2 ≤ 0xBF)
    (h5 : 0x80 ≤ b3) (h6 : b3 ≤ 0xBF) :
    decodeOne 0xF4 (b1 :: b2 :: b3 :: r) = some (cp4 0xF4 b1 b2 b3, 3) := by
  unfold decodeOne
  rw [if_neg (by omega), if_neg (by omega), if_neg (by omega), if_neg (by omega),
    if_neg (by omega), if_neg (by omega), if_neg (by omega),
    if_pos ⟨rfl, by simp, h1, h2, h3, h4, h5, h6⟩]
  rfl

theorem decIgn_nil : utf8DecodeIgnore [] = [] := by
  rw [utf8DecodeIgnore]

theorem decIgn_ascii {b0 : Nat} {r : List Nat} (h : b0 < 0x80) :
    utf8DecodeIgnore (b0 :: r) = b0 :: utf8DecodeIgnore r := by
  rw [utf8DecodeIgnore, decodeOne_ascii r h]
  rfl

theorem decIgn_two {b0 b1 : Nat} {r : List Nat}
    (h1 : 0xC2 ≤ b0) (h2 : b0 ≤ 0xDF) (h3 : 0x80 ≤ b1) (h4 : b1 ≤ 0xBF) :
    utf8DecodeIgnore (b0 :: b1 :: r) =
      ((b0 - 0xC0) * 0x40 + (b1 - 0x80)) :: utf8DecodeIgnore r := by
  rw [utf8DecodeIgnore, decodeOne_two r h1 h2 h3 h4]
  rfl

theorem decIgn_threeE0 {b1 b2 : Nat} {r : List Nat}
    (h1 : 0xA0 ≤ b1) (h2 : b1 ≤ 0xBF) (h3 : 0x80 ≤ b2) (h4 : b2 ≤ 0xBF) :
    utf8DecodeIgnore (0xE0 :: b1 :: b2 :: r) = cp3 0xE0 b1 b2 :: utf8DecodeIgnore r := by
  rw [utf8DecodeIgnore, decodeOne_threeE0 r h1 h2 h3 h4]
  rfl

theorem decIgn_threeED {b1 b2 : Nat} {r : List Nat}
    (h1 : 0x80 ≤ b1) (h2 : b1 ≤ 0x9F) (h3 : 0x80 ≤ b2) (h4 : b2 ≤ 0xBF) :
    utf8DecodeIgnore (0xED :: b1 :: b2 :: r) = cp3 0xED b1 b2 :: utf8DecodeIgnore r := by
  rw [utf8DecodeIgnore, decodeOne_threeED r h1 h2 h3 h4]
  rfl

theorem decIgn_threeMid {b0 b1 b2 : Nat} {r : List Nat}
    (h0 : 0xE1 ≤ b0) (h0' : b0 ≤ 0xEF) (hED : b0 ≠ 0xED)
    (h1 : 0x80 ≤ b1) (h2 : b1 ≤ 0xBF) (h3 : 0x80 ≤ b2) (h4 : b2 ≤ 0xBF) :
    utf8DecodeIgnore (b0 :: b1 :: b2 :: r) = cp3 b0 b1 b2 :: utf8DecodeIgnore r := by
  rw [utf8DecodeIgnore, decodeOne_threeMid r h0 h0' hED h1 h2 h3 h4]
  rfl

theorem decIgn_fourF0 {b1 b2 b3 : Nat} {r : List Nat}
    (h1 : 0x90 ≤ b1) (h2 : b1 ≤ 0xBF) (h3 : 0x80 ≤ b2) (h4 : b2 ≤ 0xBF)
    (h5 : 0x80 ≤ b3) (h6 : b3 ≤ 0xBF) :
    utf8DecodeIgnore (0xF0 :: b1 :: b2 :: b3 :: r) =
      cp4 0xF0 b1 b2 b3 :: utf8DecodeIgnore r := by
  rw [utf8DecodeIgnore, decodeOne_fourF0 r h1 h2 h3 h4 h5 h6]
  rfl

theorem decIgn_fourMid {b0 b1 b2 b3 : Nat} {r : List Nat}
    (h0 : 0xF1 ≤ b0) (h0' : b0 ≤ 0xF3)
    (h1 : 0x80 ≤ b1) (h2 : b1 ≤ 0xBF) (h3 : 0x80 ≤ b2) (h4 : b2 ≤ 0xBF)
    (h5 : 0x80 ≤ b3) (h6 : b3 ≤ 0xBF) :
    utf8DecodeIgnore (b0 :: b1 :: b2 :: b3 :: r) =
      cp4 b0 b1 b2 b3 :: utf8DecodeIgnore r := by
  rw [utf8DecodeIgnore, decodeOne_fourMid r h0 h0' h1 h2 h3 h4 h5 h6]
  rfl

theorem decIgn_fourF4 {b1 b2 b3 : Nat} {r : List Nat}
    (h1 : 0x80 ≤ b1) (h2 : b1 ≤ 0x8F) (h3 : 0x80 ≤ b2) (h4 : b2 ≤ 0xBF)
    (h5 : 0x80 ≤ b3) (h6 : b3 ≤ 0xBF) :
    utf8DecodeIgnore (0xF4 :: b1 :: b2 :: b3 :: r) =
      cp4 0xF4 b1 b2 b3 :: utf8DecodeIgnore r := by
  rw [utf8DecodeIgnore, decodeOne_fourF4 r h1 h2 h3 h4 h5 h6]
  rfl

theorem utf8Encode_cons (c : Nat) (cs : List Nat) :
    utf8Encode (c :: cs) = utf8EncodeChar c ++ utf8Encode cs := by
  simp [utf8Encode]

theorem utf8EncodeChar_one {c : Nat} (h : c < 0x80) : utf8EncodeChar c = [c] := by
  unfold utf8EncodeChar
  rw [if_pos h]

theorem utf8EncodeChar_two {c : Nat} (h1 : 0x80 ≤ c) (h2 : c < 0x800) :
    utf8EncodeChar c = [0xC0 + c / 0x40, 0x80 + c % 0x40] := by
  unfold utf8EncodeChar
  rw [if_neg (by omega), if_pos h2]

theorem utf8EncodeChar_three {c : Nat} (h1 : 0x800 ≤ c) (h2 : c < 0x10000) :
    utf8EncodeChar c = [0xE0 + c / 0x1000, 0x80 + c / 0x40 % 0x40, 0x80 + c % 0x40] := by
  unfold utf8EncodeChar
  rw [if_neg (by omega), if_neg (by omega), if_pos h2]

theorem utf8EncodeChar_four {c : Nat} (h1 : 0x10000 ≤ c) :
    utf8EncodeChar c =
      [0xF0 + c / 0x40000, 0x80 + c / 0x1000 % 0x40, 0x80 + c / 0x40 % 0x40,
       0x80 + c % 0x40] := by
  unfold utf8EncodeChar
  rw [if_neg (by omega), if_neg (by omega), if_neg (by omega)]

/-- The round trip: strict UTF-8 byte strings survive decode-then-encode
unchanged, and every decoded code point is either an original (ASCII)
byte or at least `0x80`. -/
theorem utf8_roundtrip {l : List Nat} (h : ValidUtf8 l) :
    utf8Encode (utf8DecodeIgnore l) = l ∧
    ∀ c ∈ utf8DecodeIgnore l, c ∈ l ∨ 0x80 ≤ c := by
  induction h with
  | nil => exact ⟨by rw [decIgn_nil]; rfl, by rw [decIgn_nil]; simp⟩
  | @one b r hb hr ih =>
    rw [decIgn_ascii hb]
    refine ⟨?_, ?_⟩
    · rw [utf8Encode_cons, utf8EncodeChar_one hb, ih.1]
      rfl
    · intro c hc
      rcases List.mem_cons.mp hc with rfl | hc'
      · exact Or.inl (by simp)
      · rcases ih.2 c hc' with hm | hge
        · exact Or.inl (List.mem_cons_of_mem _ hm)
        · exact Or.inr hge
  | @two b0 b1 r h1 h2 h3 h4 hr ih =>
    rw [decIgn_two h1 h2 h3 h4]
    refine ⟨?_, ?_⟩
    · rw [utf8Encode_cons, utf8EncodeChar_two (by omega) (by omega), ih.1]
      simp only [List.cons_append, List.nil_append, List.cons.injEq]
      exact ⟨by omega, by omega, trivial⟩
    · intro c hc
      rcases List.mem_cons.mp hc with hceq | hc'
      · right; omega
      · rcases ih.2 c hc' with hm | hge
        · exact Or.inl (by simp [hm])
        · exact Or.inr hge
  | @threeE0 b1 b2 r h1 h2 h3 h4 hr ih =>
    rw [decIgn_threeE0 h1 h2 h3 h4]
    refine ⟨?_, ?_⟩
    · rw [utf8Encode_cons, utf8EncodeChar_three (by simp only [cp3]; omega)
        (by simp only [cp3]; omega), ih.1]
      simp only [cp3, List.cons_append, List.nil_append, List.cons.injEq]
      exact ⟨by omega, by omega, by omega, trivial⟩
    · intro c hc
      rcases List.mem_cons.mp hc with hceq | hc'
      · right; simp only [cp3] at hceq; omega
      · rcases ih.2 c hc' with hm | hge
        · exact Or.inl (by simp [hm])
        · exact Or.inr hge
  | @threeED b1 b2 r h1 h2 h3 h4 hr ih =>
    rw [decIgn_threeED h1 h2 h3 h4]
    refine ⟨?_, ?_⟩
    · rw [utf8Encode_cons, utf8EncodeChar_three (by simp only [cp3]; omega)
        (by simp only [cp3]; omega), ih.1]
      simp only [cp3, List.cons_append, List.nil_append, List.cons.injEq]
      exact ⟨by omega, by omega, by omega, trivial⟩
    · intro c hc
      rcases List.mem_cons.mp hc with hceq | hc'
      · right; simp only [cp3] at hceq; omega
      · rcases ih.2 c hc' with hm | hge
        · exact Or.inl (by simp [hm])
        · exact Or.inr hge
  | @threeMid b0 b1 b2 r h0 h0' hED h1 h2 h3 h4 hr ih =>
    rw [decIgn_threeMid h0 h0' hED h1 h2 h3 h4]
    refine ⟨?_, ?_⟩
    · rw [utf8Encode_cons, utf8EncodeChar_three (by simp only [cp3]; omega)
        (by simp only [cp3]; omega), ih.1]
      simp only [cp3, List.cons_append, List.nil_append, List.cons.injEq]
      exact ⟨by omega, by omega, by omega, trivial⟩
    · intro c hc
      rcases List.mem_cons.mp hc with hceq | hc'
      · right; simp only [cp3] at hceq; omega
      · rcases ih.2 c hc' with hm | hge
        · exact Or.inl (by simp [hm])
        · exact Or.inr hge
  | @fourF0 b1 b2 b3 r h1 h2 h3 h4 h5 h6 hr ih =>
    rw [decIgn_fourF0 h1 h2 h3 h4 h5 h6]
    refine ⟨?_, ?_⟩
    · rw [utf8Encode_cons, utf8EncodeChar_four (by simp only [cp4]; omega), ih.1]
      simp only [cp4, List.cons_append, List.nil_append, List.cons.injEq]
      exact ⟨by omega, by omega, by omega, by omega, trivial⟩
    · intro c hc
      rcases List.mem_cons.mp hc with hceq | hc'
      · right; simp only [cp4] at hceq; omega
      · rcases ih.2 c hc' with hm | hge
        · exact Or.inl (by simp [hm])
        · exact Or.inr hge
  | @fourMid b0 b1 b2 b3 r h0 h0' h1 h2 h3 h4 h5 h6 hr ih =>
    rw [decIgn_fourMid h0 h0' h1 h2 h3 h4 h5 h6]
    refine ⟨?_, ?_⟩
    · rw [utf8Encode_cons, utf8EncodeChar_four (by simp only [cp4]; omega), ih.1]
      simp only [cp4, List.cons_append, List.nil_append, List.cons.injEq]
      exact ⟨by omega, by omega, by omega, by omega, trivial⟩
    · intro c hc
      rcases List.mem_cons.mp hc with hceq | hc'
      · right; simp only [cp4] at hceq; omega
      · rcases ih.2 c hc' with hm | hge
        · exact Or.inl (by simp [hm])
        · exact Or.inr hge
  | @fourF4 b1 b2 b3 r h1 h2 h3 h4 h5 h6 hr ih =>
    rw [decIgn_fourF4 h1 h2 h3 h4 h5 h6]
    refine ⟨?_, ?_⟩
    · rw [utf8Encode_cons, utf8EncodeChar_four (by simp only [cp4]; omega), ih.1]
      simp only [cp4, List.cons_append, List.nil_append, List.cons.injEq]
      exact ⟨by omega, by omega, by omega, by omega, trivial⟩
    · intro c hc
      rcases List.mem_cons.mp hc with hceq | hc'
      · right; simp only [cp4] at hceq; omega
      · rcases ih.2 c hc' with hm | hge
        · exact Or.inl (by simp [hm])
        · exact Or.inr hge

/-- Helper: newline translation is the identity on carriage-return-free text. -/
theorem univNewlines_eq_self {l : List Nat} (h : ∀ c ∈ l, c ≠ 13) :
    univNewlines l = l := by
  induction l with
  | nil => rfl
  | cons c1 rest ih =>
    cases rest with
    | nil => rw [univNewlines, if_neg (h c1 (by simp))]
    | cons c2 r =>
      have h1 : c1 ≠ 13 := h c1 (by simp)
      rw [univNewlines, if_neg h1,
        ih (fun c hc => h c (List.mem_cons_of_mem _ hc))]

/-- Helper: text-mode reading then UTF-8 encoding is the identity on valid
UTF-8 input containing no carriage return byte. -/
theorem readTxt_valid_eq {bytes : List Nat} (h : ValidUtf8 bytes) (hcr : 13 ∉ bytes) :
    utf8Encode (readTxt bytes) = bytes := by
  have hr := utf8_roundtrip h
  have hno : ∀ c ∈ utf8DecodeIgnore bytes, c ≠ 13 := by
    intro c hc hc13
    rcases hr.2 c hc with hm | hge
    · exact hcr (hc13 ▸ hm)
    · omega
  unfold readTxt
  rw [univNewlines_eq_self hno, hr.1]

/-- C1 (counterexample): a txt-to-txt job whose input is the single byte
`0xFF` (not valid UTF-8) returns EMPTY output bytes — the text-mode read
drops the undecodable byte — so the output is not byte-identical to the
input. -/
theorem C1_counterexample :
    documentConvert docEnvZero "txt".toList [0xFF] "txt".toList "a.txt".toList =
      .ok ⟨[], "a.txt".toList, "text/plain"⟩ ∧ ([] : List Nat) ≠ [0xFF] := by
  constructor
  · unfold documentConvert
    rw [if_pos rfl]
    dsimp only
    rw [if_pos rfl]
    have h1 : utf8DecodeIgnore [0xFF] = [] := by
      rw [utf8DecodeIgnore, show decodeOne 0xFF [] = none from rfl]
      exact decIgn_nil
    have h2 : utf8Encode (readTxt [0xFF]) = [] := by
      rw [readTxt, h1]
      rfl
    rw [h2, show doc_get_output_filename "a.txt".toList "txt".toList = "a.txt".toList
      from by decide]
  · decide

/-- C1 (amended): pdf-to-pdf and docx-to-docx identity jobs return output
bytes byte-identical to the input; a txt-to-txt job returns the UTF-8
re-encoding of the input as read in text mode (invalid sequences dropped,
universal newlines translated), which is byte-identical exactly on valid
UTF-8 input free of carriage returns. -/
theorem C1_identity (env : DocEnv) (bytes : List Nat) (name : List Char) :
    (documentConvert env "pdf".toList bytes "pdf".toList name =
      .ok ⟨bytes, doc_get_output_filename name "pdf".toList, "application/pdf"⟩) ∧
    (documentConvert env "docx".toList bytes "docx".toList name =
      .ok ⟨bytes, doc_get_output_filename name "docx".toList, docxMime⟩) ∧
    (ValidUtf8 bytes → 13 ∉ bytes →
      documentConvert env "txt".toList bytes "txt".toList name =
        .ok ⟨bytes, doc_get_output_filename name "txt".toList, "text/plain"⟩) := by
  refine ⟨?_, ?_, ?_⟩
  · unfold documentConvert
    rw [if_neg (by decide), if_pos rfl, if_pos rfl]
  · unfold documentConvert
    rw [if_neg (by decide), if_neg (by decide), if_pos (by decide), if_pos rfl]
  · intro hv hcr
    unfold documentConvert
    rw [if_pos rfl]
    dsimp only
    rw [if_pos rfl, readTxt_valid_eq hv hcr]

/-! ## Witnesses: the claim theorems applied at concrete inputs -/

/-- C1 witness: the txt identity conjunct applied to the valid-UTF-8,
CR-free input `"hi"` (bytes `[104, 105]`). -/
theorem C1_witness :
    documentConvert docEnvZero "txt".toList [104, 105] "txt".toList "a.txt".toList =
      .ok ⟨[104, 105], doc_get_output_filename "a.txt".toList "txt".toList,
        "text/plain"⟩ :=
  (C1_identity docEnvZero [104, 105] "a.txt".toList).2.2
    (ValidUtf8.one (by omega) (ValidUtf8.one (by omega) ValidUtf8.nil))
    (by decide)

/-- C2 witness: the video conjunct applied to target format `"MP4"`
(upper-case), whose output filename is lower-cased. -/
theorem C2_witness :
    (⟨[9], video_get_output_filename "clip.avi".toList "MP4".toList, "video/mp4"⟩
        : ConvResult).filename =
      pathStem "clip.avi".toList ++ '.' :: "MP4".toList.map lowerChar :=
  C2_output_filename.2.2.2 ⟨true, fun _ _ => .completed 0 "", [9]⟩ "in.avi".toList
    "t".toList "MP4".toList "clip.avi".toList []
    ⟨[9], video_get_output_filename "clip.avi".toList "MP4".toList, "video/mp4"⟩ rfl

/-- C4 witness: the all-success conjunct applied to a one-job batch. -/
theorem C4_witness :
    process_conversions (fun _ => .ok ⟨[1], "b.txt".toList, "text/plain"⟩)
      [⟨"b.TXT".toList, [2], "txt".toList, "document"⟩] =
      ([⟨[1], "b.txt".toList, "text/plain"⟩], []) :=
  C4_outcome_accounting.2 (fun _ => .ok ⟨[1], "b.txt".toList, "text/plain"⟩)
    (fun _ => ⟨[1], "b.txt".toList, "text/plain"⟩)
    [⟨"b.TXT".toList, [2], "txt".toList, "document"⟩]
    (fun _ _ => ⟨rfl, List.cons_ne_nil 1 []⟩)

/-- C7 witness: an environment whose loaders always throw exercises the
mandatory generic fallback and the combined error message. -/
theorem C7_witness :
    (audioConvert audioEnvFail "mp3".toList "wav".toList "a.mp3".toList
        "t1".toList "t2".toList []).2.1 =
      [loaderFor "mp3".toList, Loader.fromFileGeneric] ∧
    (audioConvert audioEnvFail "mp3".toList "wav".toList "a.mp3".toList
        "t1".toList "t2".toList []).1 =
      .error ("Failed to convert audio: " ++ "no decoder" ++
        ". Fallback also failed: " ++ "no decoder") :=
  have h := C7_audio_fallback audioEnvFail "mp3".toList "wav".toList "a.mp3".toList
    "t1".toList "t2".toList [] "no decoder" (by decide) rfl
  ⟨h.1, h.2.2 "no decoder" rfl⟩

/-- C8 witness: an available tool that exits with code 1 is invoked once
with a 300-second timeout and yields a failure outcome. -/
theorem C8_witness :
    (videoConvert videoEnvExit1 "in.mp4".toList "t".toList "avi".toList
        "v.mp4".toList []).2.2 =
      [(build_ffmpeg_command "in.mp4".toList "t".toList "avi".toList, 300)] ∧
    (∃ e, (videoConvert videoEnvExit1 "in.mp4".toList "t".toList "avi".toList
        "v.mp4".toList []).1 = .error e) :=
  ⟨C8_ffmpeg_contract.2.1 videoEnvExit1 "in.mp4".toList "t".toList "avi".toList
      "v.mp4".toList [] rfl,
   C8_ffmpeg_contract.2.2 videoEnvExit1 "in.mp4".toList "t".toList "avi".toList
      "v.mp4".toList [] 1 "boom" rfl rfl (by decide)⟩

/-- C9 witness: a failed video conversion and a doubly-failed audio
conversion both leave the pre-existing temporary file list unchanged. -/
theorem C9_witness :
    (videoConvert videoEnvExit1 "in.mp4".toList "t".toList "mp4".toList
        "v.mp4".toList ["other".toList]).2.1 = ["other".toList] ∧
    (audioConvert audioEnvFail "mp3".toList "wav".toList "a.mp3".toList
        "t1".toList "t2".toList ["other".toList]).2.2 = ["other".toList] :=
  ⟨C9_temp_cleanup.1 videoEnvExit1 "in.mp4".toList "t".toList "mp4".toList
      "v.mp4".toList ["other".toList] (by decide),
   C9_temp_cleanup.2.2 audioEnvFail "mp3".toList "wav".toList "a.mp3".toList
      "t1".toList "t2".toList ["other".toList] (by decide) (by decide)⟩

/-- C10 witness: the invariants applied to a concrete dirty filename. -/
theorem C10_witness :
    ('<' ∉ clean_filename "  a<<b__c_  ".toList) ∧
    clean_filename (clean_filename "  a<<b__c_  ".toList) =
      clean_filename "  a<<b__c_  ".toList :=
  ⟨(C10_clean_filename "  a<<b__c_  ".toList).1 '<' (by decide),
   (C10_clean_filename "  a<<b__c_  ".toList).2.2.2.2⟩

/-- C3 witness: the passthrough theorem applied at a concrete doc job. -/
theorem C3_witness :
    documentConvert docEnvMark "doc".toList [5, 6] "docx".toList "r.doc".toList =
      .ok ⟨[5, 6], doc_get_output_filename "r.doc".toList "docx".toList, docxMime⟩ :=
  C3_doc_to_docx_passthrough docEnvMark [5, 6] "r.doc".toList

/-- C5 witness: the classifier characterization applied at a concrete name. -/
theorem C5_witness : get_file_type "photo.JPG".toList = "image" :=
  (C5_classifier "photo.JPG".toList).2.1.mpr (by decide)

/-- C6 witness: the size rule applied at the exact video ceiling. -/
theorem C6_witness :
    (validate_file_size (50 * 1024 * 1024) "video").1 = true ∧
    (validate_file_size (50 * 1024 * 1024 + 1) "video").1 = false := by
  refine ⟨?_, ?_⟩
  · have h := (C6_size_limits (50 * 1024 * 1024) "video").2
    simpa using h
  · have h := (C6_size_limits (50 * 1024 * 1024 + 1) "video").1
    rw [h]
    decide
